import Mathlib

/-!
Shallow embedding of the model-construction logic of the thesis repository:
`scripts/models.py` (classes `ResNet` and `EnsembleModel`) and
`models/dinohead.py` (class `DINOHead`).  Tensor contents are abstracted to
the data the verified properties depend on: the size of the input-channel
axis of a convolution weight, parameter trainability flags, layer shapes and
weight-initialisation state.  Everything delegated to torch or monai
(convolution arithmetic, file reads, the backbone architectures themselves)
stays outside the embedding, which receives those results as inputs.
-/

namespace ThesisModels

/-- A tensor, abstracted to the length of its axis 1: the input-channel axis
of a first-convolution weight, the axis that `torch.cat(..., 1)` concatenates
in `ResNet.intialize_model`. -/
structure Tensor where
  inChannels : Nat
deriving DecidableEq

/-- `torch.cat((a, b), 1)`: concatenation along axis 1 adds the axis-1 sizes. -/
def torchCat1 (a b : Tensor) : Tensor :=
  Tensor.mk (a.inChannels + b.inChannels)

/-- Python `dict` lookup `d[k]` on an association list (keys unique,
insertion order kept); `none` models a `KeyError`. -/
def dictLookup : List (String × α) → String → Option α
  | [], _ => none
  | (k1, v) :: rest, k => if k1 = k then some v else dictLookup rest k

/-- Python `d[k] = v`: overwrite the entry in place when the key is present,
append it otherwise. -/
def dictSet : List (String × α) → String → α → List (String × α)
  | [], k, v => [(k, v)]
  | (k1, v1) :: rest, k, v =>
      if k1 = k then (k, v) :: rest else (k1, v1) :: dictSet rest k v

/-- Python `d.update(w)`: set every entry of `w` into `d`, in order. -/
def dictUpdate (d w : List (String × α)) : List (String × α) :=
  w.foldl (fun acc kv => dictSet acc kv.1 kv.2) d

/-- Character-wise test that `pat` is a prefix of the second list. -/
def isPrefixList : List Char → List Char → Bool
  | [], _ => true
  | _ :: _, [] => false
  | a :: as, b :: bs => a == b && isPrefixList as bs

/-- The scan of Python `s.replace(pat, '')`: left to right, non-overlapping,
resuming after each removed occurrence.  `fuel` only pays for termination;
`fuel = s.length` is enough for a non-empty `pat`, because every step
consumes at least one character. -/
def replaceAllFuel (pat : List Char) : Nat → List Char → List Char
  | _, [] => []
  | 0, c :: rest => c :: rest
  | fuel + 1, c :: rest =>
      if isPrefixList pat (c :: rest) then
        replaceAllFuel pat fuel (List.drop pat.length (c :: rest))
      else
        c :: replaceAllFuel pat fuel rest

/-- Python `s.replace(pat, '')` for a non-empty `pat`. -/
def replaceAll (pat s : List Char) : List Char :=
  replaceAllFuel pat s.length s

/-- `pat` occurs as a contiguous substring. -/
def containsSub (pat : List Char) : List Char → Bool
  | [] => isPrefixList pat []
  | c :: rest => isPrefixList pat (c :: rest) || containsSub pat rest

/-- `k.replace('module.', '')` from `ResNet.intialize_model`
(models.py line 98). -/
def normalizeKey (k : String) : String :=
  String.mk (replaceAll "module.".toList k.toList)

/-- Key normalisation of the loaded checkpoint state dict:
`{k.replace('module.', ''): v for k, v in weights_dict['state_dict'].items()}`
(models.py line 98). -/
def normalizeKeys (d : List (String × Tensor)) : List (String × Tensor) :=
  d.map (fun kv => (normalizeKey kv.1, kv.2))

/-- The `while channel < self.num_in_channels` loop of
`ResNet.intialize_model` (models.py lines 101-104), indexed by its remaining
iteration count: the body runs once per counter value
`channel = 1, ..., num_in_channels - 1`, each time concatenating the
originally captured `conv1_weight` onto the current
`model_dict['conv1.weight']` along axis 1 and storing the result back. -/
def ResNet.expandChannelsLoop (conv1_weight : Tensor) :
    Nat → List (String × Tensor) → Option (List (String × Tensor))
  | 0, model_dict => some model_dict
  | n + 1, model_dict =>
      match dictLookup model_dict "conv1.weight" with
      | none => none
      | some cur =>
          ResNet.expandChannelsLoop conv1_weight n
            (dictSet model_dict "conv1.weight" (torchCat1 cur conv1_weight))

/-- `ResNet.intialize_model` (models.py lines 82-105) after the external file
read: `model_dict` is `self.model.state_dict()` and `checkpoint` is the
loaded `weights_dict['state_dict']`.  Checkpoint keys are normalised, merged
over the model dict by `dict.update`, `conv1_weight` is read (a missing key
would be a `KeyError`, modelled as `none`), and the first-convolution weight
is expanded by the counter-driven loop, which runs `num_in_channels - 1`
times. -/
def ResNet.intialize_model (model_dict checkpoint : List (String × Tensor))
    (num_in_channels : Nat) : Option (List (String × Tensor)) :=
  let weights_dict := normalizeKeys checkpoint
  let merged := dictUpdate model_dict weights_dict
  match dictLookup merged "conv1.weight" with
  | none => none
  | some conv1_weight =>
      ResNet.expandChannelsLoop conv1_weight (num_in_channels - 1) merged

/-- The `conv1.weight` entry of the dictionary returned by
`ResNet.intialize_model`. -/
def conv1AfterLoad (model_dict checkpoint : List (String × Tensor))
    (num_in_channels : Nat) : Option Tensor :=
  (ResNet.intialize_model model_dict checkpoint num_in_channels).bind
    (fun d => dictLookup d "conv1.weight")

/-- Modelled from the spec's words ("Channel expansion", testable property
list), for comparison with the code: the width the spec predicts for the
expanded first-convolution weight - `k` when `k` is an exact multiple of the
original width `w`, otherwise the next multiple of `w` that is `≥ k`. -/
def specExpandedWidth (w k : Nat) : Nat :=
  if k % w = 0 then k else w * (k / w + 1)

/-- One learnable parameter of the wrapped monai model, abstracted to its
name, its `requires_grad` flag, and whether it belongs to the `model.fc`
submodule.  `model.fc.parameters()` yields the very objects that
`model.parameters()` yields, so the sharing is modelled by the tag. -/
structure Param where
  name : String
  requiresGrad : Bool
  isFc : Bool
deriving DecidableEq

/-- `param.requires_grad = b`. -/
def setRequiresGrad (b : Bool) (p : Param) : Param :=
  { p with requiresGrad := b }

/-- `ResNet.extract_features` (models.py lines 107-124): with
`feature_extraction` set, one loop freezes every parameter of `self.model`,
then a second loop re-enables every parameter of `self.model.fc`; otherwise
a single loop enables every parameter. -/
def ResNet.extract_features (feature_extraction : Bool) (params : List Param) :
    List Param :=
  if feature_extraction then
    (params.map (setRequiresGrad false)).map
      (fun p => if p.isFc then setRequiresGrad true p else p)
  else
    params.map (setRequiresGrad true)

/-- `ResNet.define_output_layer` (models.py lines 68-80): a freshly
constructed `torch.nn.Linear`, whose two parameters are trainable, replacing
`self.model.fc`. -/
def ResNet.define_output_layer : List Param :=
  [Param.mk "fc.weight" true true, Param.mk "fc.bias" true true]

/-- The seven version literals accepted by `ResNet.__init__`
(models.py line 24). -/
def validVersions : List String :=
  ["resnet10", "resnet18", "resnet34", "resnet50", "resnet101", "resnet152",
   "resnet200"]

/-- Outcome of running `ResNet.__init__`: `fatal` is `print(diagnostic)`
followed by `exit(code)` (process termination), `raised` is a Python
exception propagating out to the caller (never produced here: the
`AssertionError` of the version check is caught inside `__init__` itself),
and `ok` returns the constructed instance. -/
inductive ConstructOutcome (α : Type) where
  | fatal (exitCode : Nat) (diagnostic : String)
  | raised (exceptionType message : String)
  | ok (inst : α)
deriving DecidableEq

/-- `ResNet.__init__` (models.py lines 7-52) on the parameter-flag view: the
version check (`assert any(version == version_item for version_item in
[...])`, its `AssertionError` caught and turned into a printed diagnostic
plus `exit(1)`), the replacement of `self.model.fc` by a fresh output layer,
and the final freezing policy.  `backboneParams` are the parameters of the
monai backbone selected by `version` (external input); pretrained-weight
loading is modelled separately by `ResNet.intialize_model`, since
`load_state_dict` rewrites tensor values and never `requires_grad` flags. -/
def ResNet.construct (version : String) (feature_extraction : Bool)
    (backboneParams : List Param) : ConstructOutcome (List Param) :=
  if validVersions.any (fun version_item => version == version_item) then
    let withNewFc :=
      backboneParams.filter (fun p => !p.isFc) ++ ResNet.define_output_layer
    ConstructOutcome.ok (ResNet.extract_features feature_extraction withNewFc)
  else
    ConstructOutcome.fatal 1
      "Invalid version. Please choose from: resnet10, resnet18, resnet34, resnet50, resnet101, resnet152, resnet200"

/-- Whether construction returned an instance. -/
def ConstructOutcome.isOk : ConstructOutcome α → Bool
  | ConstructOutcome.ok _ => true
  | _ => false

/-- The parameters whose `requires_grad` flag is set, on a successfully
constructed model. -/
def trainableParams : ConstructOutcome (List Param) → Option (List Param)
  | ConstructOutcome.ok ps => some (ps.filter (fun p => p.requiresGrad))
  | _ => none

/-- The parameters of the (newly created) `model.fc`, on a successfully
constructed model. -/
def fcParams : ConstructOutcome (List Param) → Option (List Param)
  | ConstructOutcome.ok ps => some (ps.filter (fun p => p.isFc))
  | _ => none

/-- The full parameter set of a successfully constructed model. -/
def allParams : ConstructOutcome (List Param) → Option (List Param)
  | ConstructOutcome.ok ps => some ps
  | _ => none

/-- `EnsembleModel` state on the parameter-flag view (models.py
lines 136-160): the four stored backbones and the combiner
`torch.nn.Linear(num_out_classes * 4, num_out_classes)`. -/
structure EnsembleModel where
  model1 : List Param
  model2 : List Param
  model3 : List Param
  model4 : List Param
  classifier : List Param
deriving DecidableEq

/-- `EnsembleModel.freeze_model_parameters` (models.py lines 181-195): set
`requires_grad = False` on every parameter of each of the four backbones and
`requires_grad = True` on every parameter of the combiner. -/
def EnsembleModel.freeze_model_parameters (e : EnsembleModel) : EnsembleModel :=
  { model1 := e.model1.map (setRequiresGrad false),
    model2 := e.model2.map (setRequiresGrad false),
    model3 := e.model3.map (setRequiresGrad false),
    model4 := e.model4.map (setRequiresGrad false),
    classifier := e.classifier.map (setRequiresGrad true) }

/-- The parameters of the freshly constructed combiner
`torch.nn.Linear(num_out_classes * 4, num_out_classes)` (models.py
line 159). -/
def ensembleClassifierParams : List Param :=
  [Param.mk "classifier.weight" true false, Param.mk "classifier.bias" true false]

/-- `EnsembleModel.__init__` (models.py lines 138-160) on the flag view:
store the four backbones (whatever flags their parameters carry), build the
combiner, and call `freeze_model_parameters`. -/
def EnsembleModel.init (m1 m2 m3 m4 : List Param) : EnsembleModel :=
  EnsembleModel.freeze_model_parameters
    { model1 := m1, model2 := m2, model3 := m3, model4 := m4,
      classifier := ensembleClassifierParams }

/-- Dot product of an integer weight row with an input vector
(`torch.nn.Linear` restricted to integer entries). -/
def dotInt (w x : List Int) : Int :=
  ((w.zip x).map (fun p => p.1 * p.2)).sum

/-- A `torch.nn.Linear` on integer vectors: one weight row and one bias
entry per output feature. -/
structure LinearLayer where
  weight : List (List Int)
  bias : List Int
deriving DecidableEq

/-- Application of a linear layer to one sample. -/
def LinearLayer.applyL (l : LinearLayer) (x : List Int) : List Int :=
  (l.weight.zip l.bias).map (fun wb => dotInt wb.1 x + wb.2)

/-- The `in_features` of the ensemble combiner
`torch.nn.Linear(num_out_classes * 4, num_out_classes)` (models.py
line 159). -/
def ensembleClassifierInFeatures (num_out_classes : Nat) : Nat :=
  num_out_classes * 4

/-- `EnsembleModel.forward` (models.py lines 162-179) on one sample: the four
backbones run independently on the same input, their outputs are
concatenated in argument order (`torch.cat((x1, x2, x3, x4), dim=1)` is
plain append on the feature axis of a single sample), and the combiner is
applied to the concatenation. -/
def EnsembleModel.forward (model1 model2 model3 model4 : List Int → List Int)
    (classifier : List Int → List Int) (x : List Int) : List Int :=
  let x1 := model1 x
  let x2 := model2 x
  let x3 := model3 x
  let x4 := model4 x
  let xc := x1 ++ x2 ++ x3 ++ x4
  classifier xc

/-- A layer of the `DINOHead` MLP: `nn.Linear(inFeatures, outFeatures)` or
`nn.GELU()`. -/
inductive DinoLayer where
  | linear (inFeatures outFeatures : Nat)
  | gelu
deriving DecidableEq

/-- Whether a `DinoLayer` is a linear layer. -/
def isLinearLayer : DinoLayer → Bool
  | DinoLayer.linear _ _ => true
  | DinoLayer.gelu => false

/-- Whether a `DinoLayer` is a GELU activation. -/
def isGeluLayer : DinoLayer → Bool
  | DinoLayer.linear _ _ => false
  | DinoLayer.gelu => true

/-- `DINOHead.__init__` (dinohead.py lines 9-21): the layer sequence of
`self.mlp`.  `nlayers = max(nlayers, 1)`, `hidden_dim = int(in_dim * 4)`,
`bottleneck_dim = in_dim // 2`; a single linear layer for `nlayers == 1`,
otherwise the first linear and activation, `nlayers - 2` further
linear/activation pairs appended by the loop, and the closing linear map to
the bottleneck. -/
def DINOHead.buildMlp (in_dim nlayers0 : Nat) : List DinoLayer :=
  let nlayers := max nlayers0 1
  let hidden_dim := in_dim * 4
  let bottleneck_dim := in_dim / 2
  if nlayers = 1 then
    [DinoLayer.linear in_dim bottleneck_dim]
  else
    [DinoLayer.linear in_dim hidden_dim, DinoLayer.gelu]
      ++ (List.replicate (nlayers - 2)
            [DinoLayer.linear hidden_dim hidden_dim, DinoLayer.gelu]).flatten
      ++ [DinoLayer.linear hidden_dim bottleneck_dim]

/-- Dimension discipline of one MLP layer, used to state that hidden widths
are exactly `4 * in_dim`: every linear layer reads either the input embedding
width or the hidden width, and writes either the hidden width or the
bottleneck width. -/
def mlpDimsOk (in_dim : Nat) : DinoLayer → Bool
  | DinoLayer.linear di dout =>
      (di == in_dim || di == in_dim * 4) && (dout == in_dim * 4 || dout == in_dim / 2)
  | DinoLayer.gelu => true

/-- Weight-initialisation state of a linear layer. -/
inductive WeightInit where
  | frameworkDefault
  | truncNormal002
deriving DecidableEq

/-- Initialisation-relevant state of one `nn.Linear`.  `biasZeroed = none`
means the layer was built with `bias=False`. -/
structure LinearInitState where
  weightInit : WeightInit
  biasZeroed : Option Bool
deriving DecidableEq

/-- `DINOHead._init_weights` (dinohead.py lines 28-32) on a linear module:
truncated-normal weights with std 0.02 and, when a bias exists, constant 0. -/
def initWeightsLinear (l : LinearInitState) : LinearInitState :=
  { weightInit := WeightInit.truncNormal002,
    biasZeroed := l.biasZeroed.map (fun _ => true) }

/-- Initialisation-relevant state of a `DINOHead` after `__init__`. -/
structure DINOHeadState where
  mlpLinears : List LinearInitState
  lastLayer : LinearInitState
  lastLayerMagFilledOne : Bool
  lastLayerMagTrainable : Bool
deriving DecidableEq

/-- `DINOHead.__init__` (dinohead.py lines 7-26) in construction order: build
`self.mlp` (each fresh `nn.Linear` carries the framework-default
initialisation and a not-yet-zeroed bias), run
`self.apply(self._init_weights)` over the modules existing at that point -
which is `self.mlp` only - then create the weight-normalised
`self.last_layer` (`bias=False`), fill its magnitude parameter
(`parametrizations.weight.original0`) with 1, and freeze that magnitude when
`norm_last_layer` is set. -/
def DINOHead.construct (in_dim nlayers0 : Nat) (norm_last_layer : Bool) :
    DINOHeadState :=
  let freshMlp := (DINOHead.buildMlp in_dim nlayers0).filterMap
    (fun l => match l with
      | DinoLayer.linear _ _ =>
          some { weightInit := WeightInit.frameworkDefault,
                 biasZeroed := some false }
      | DinoLayer.gelu => none)
  let appliedMlp := freshMlp.map initWeightsLinear
  { mlpLinears := appliedMlp,
    lastLayer := { weightInit := WeightInit.frameworkDefault, biasZeroed := none },
    lastLayerMagFilledOne := true,
    lastLayerMagTrainable := !norm_last_layer }

/-! Helper lemmas about the dictionary primitives and the channel-expansion
loop. -/

theorem dictLookup_dictSet_eq (d : List (String × α)) (k : String) (v : α) :
    dictLookup (dictSet d k v) k = some v := by
  induction d with
  | nil => simp [dictSet, dictLookup]
  | cons kv rest ih =>
      obtain ⟨k1, v1⟩ := kv
      by_cases h : k1 = k
      · simp [dictSet, h, dictLookup]
      · simp [dictSet, h, dictLookup, ih]

theorem dictLookup_dictSet_ne (d : List (String × α)) (k k2 : String) (v : α)
    (h : k2 ≠ k) : dictLookup (dictSet d k2 v) k = dictLookup d k := by
  induction d with
  | nil => simp [dictSet, dictLookup, h]
  | cons kv rest ih =>
      obtain ⟨k1, v1⟩ := kv
      by_cases h1 : k1 = k2
      · subst h1
        simp [dictSet, dictLookup, h]
      · simp [dictSet, h1, dictLookup, ih]

theorem dictUpdate_cons (d : List (String × α)) (kv : String × α)
    (w : List (String × α)) :
    dictUpdate d (kv :: w) = dictUpdate (dictSet d kv.1 kv.2) w := rfl

theorem dictLookup_dictUpdate_of_not_mem (d w : List (String × α)) (k : String)
    (h : dictLookup w k = none) :
    dictLookup (dictUpdate d w) k = dictLookup d k := by
  induction w generalizing d with
  | nil => rfl
  | cons kv rest ih =>
      obtain ⟨k1, v1⟩ := kv
      have h1 : ¬k1 = k := by
        intro he
        simp [dictLookup, he] at h
      have h2 : dictLookup rest k = none := by
        simpa [dictLookup, h1] using h
      rw [dictUpdate_cons, ih _ h2]
      exact dictLookup_dictSet_ne _ _ _ _ h1

theorem dictLookup_eq_none_of_all_ne (w : List (String × α)) (k : String)
    (h : ∀ kv ∈ w, kv.1 ≠ k) : dictLookup w k = none := by
  induction w with
  | nil => rfl
  | cons kv rest ih =>
      obtain ⟨k1, v1⟩ := kv
      have h1 : k1 ≠ k := h (k1, v1) (List.mem_cons_self _ _)
      simp only [dictLookup, if_neg h1]
      exact ih (fun kv hkv => h kv (List.mem_cons_of_mem _ hkv))

theorem expandChannelsLoop_spec (base : Tensor) (n : Nat) :
    ∀ (d : List (String × Tensor)) (c : Tensor),
      dictLookup d "conv1.weight" = some c →
      ∃ d2, ResNet.expandChannelsLoop base n d = some d2 ∧
        dictLookup d2 "conv1.weight" =
          some (Tensor.mk (c.inChannels + n * base.inChannels)) ∧
        ∀ key, key ≠ "conv1.weight" → dictLookup d2 key = dictLookup d key := by
  induction n with
  | zero =>
      intro d c hc
      refine ⟨d, rfl, ?_, fun _ _ => rfl⟩
      simpa using hc
  | succ n ih =>
      intro d c hc
      have hstep : ResNet.expandChannelsLoop base (n + 1) d =
          ResNet.expandChannelsLoop base n
            (dictSet d "conv1.weight" (torchCat1 c base)) := by
        simp [ResNet.expandChannelsLoop, hc]
      obtain ⟨d2, hloop, hlook, hframe⟩ :=
        ih (dictSet d "conv1.weight" (torchCat1 c base)) (torchCat1 c base)
          (dictLookup_dictSet_eq _ _ _)
      refine ⟨d2, by rw [hstep]; exact hloop, ?_, ?_⟩
      · rw [hlook]
        have : (torchCat1 c base).inChannels + n * base.inChannels =
            c.inChannels + (n + 1) * base.inChannels := by
          simp [torchCat1]
          ring
        rw [this]
      · intro key hkey
        rw [hframe key hkey]
        exact dictLookup_dictSet_ne _ _ _ _ (Ne.symm hkey)

theorem conv1AfterLoad_spec (model_dict checkpoint : List (String × Tensor))
    (k w : Nat) (hk : 1 ≤ k)
    (hw : dictLookup (dictUpdate model_dict (normalizeKeys checkpoint))
        "conv1.weight" = some (Tensor.mk w)) :
    conv1AfterLoad model_dict checkpoint k = some (Tensor.mk (k * w)) := by
  obtain ⟨d2, hloop, hlook, _⟩ := expandChannelsLoop_spec (Tensor.mk w) (k - 1) _ _ hw
  have hmodel : ResNet.intialize_model model_dict checkpoint k = some d2 := by
    simp only [ResNet.intialize_model, hw]
    exact hloop
  obtain ⟨k2, rfl⟩ : ∃ k2, k = k2 + 1 := ⟨k - 1, by omega⟩
  unfold conv1AfterLoad
  rw [hmodel]
  show dictLookup d2 "conv1.weight" = some (Tensor.mk ((k2 + 1) * w))
  rw [hlook]
  have harith : ({ inChannels := w } : Tensor).inChannels +
      (k2 + 1 - 1) * ({ inChannels := w } : Tensor).inChannels = (k2 + 1) * w := by
    show w + k2 * w = (k2 + 1) * w
    ring
  rw [harith]

/-! Helper lemmas about `replaceAll`, the embedding of
`str.replace('module.', '')`. -/

theorem isPrefixList_append_self (p t : List Char) :
    isPrefixList p (p ++ t) = true := by
  induction p with
  | nil => rfl
  | cons a as ih => simp [isPrefixList, ih]

theorem replaceAllFuel_no_occurrence (pat : List Char) (t : List Char)
    (h : containsSub pat t = false) (fuel : Nat) :
    replaceAllFuel pat fuel t = t := by
  induction t generalizing fuel with
  | nil => cases fuel <;> rfl
  | cons c rest ih =>
      have hsplit : isPrefixList pat (c :: rest) = false ∧
          containsSub pat rest = false := by
        simpa [containsSub, Bool.or_eq_false_iff] using h
      cases fuel with
      | zero => rfl
      | succ f => simp [replaceAllFuel, hsplit.1, ih hsplit.2 f]

theorem replaceAll_strip (pat t : List Char) (hpat : pat ≠ [])
    (h : containsSub pat t = false) : replaceAll pat (pat ++ t) = t := by
  cases pat with
  | nil => exact absurd rfl hpat
  | cons a p2 =>
      show replaceAllFuel (a :: p2) ((a :: p2) ++ t).length ((a :: p2) ++ t) = t
      have hcons : (a :: p2) ++ t = a :: (p2 ++ t) := rfl
      rw [hcons, List.length_cons]
      have hpre : isPrefixList (a :: p2) (a :: (p2 ++ t)) = true := by
        have := isPrefixList_append_self (a :: p2) t
        rwa [hcons] at this
      have hdrop : List.drop (a :: p2).length (a :: (p2 ++ t)) = t := by
        have := List.drop_left (a :: p2) t
        rwa [hcons] at this
      simp only [replaceAllFuel, hpre, if_true, hdrop]
      exact replaceAllFuel_no_occurrence _ _ h _

/-! Claim theorems. -/

/-- C1 counterexample: starting from a pretrained first-convolution weight of
input-channel width 2 (delivered by the checkpoint under the wrapped key
`module.conv1.weight`) and target `num_in_channels = 3`, the code produces
width `6 = 3 × 2`, while the claim predicts the next multiple of 2 that is
`≥ 3`, namely `4`.  The loop is counter-driven, so it does not stop as soon
as the channel count reaches the target. -/
theorem claim1_counterexample :
    conv1AfterLoad [("conv1.weight", Tensor.mk 1)]
        [("module.conv1.weight", Tensor.mk 2)] 3 = some (Tensor.mk 6) ∧
    specExpandedWidth 2 3 = 4 ∧
    conv1AfterLoad [("conv1.weight", Tensor.mk 1)]
        [("module.conv1.weight", Tensor.mk 2)] 3 ≠
      some (Tensor.mk (specExpandedWidth 2 3)) := by
  decide

/-- C1 (amended): for a model state dictionary whose first-convolution weight
has input-channel width `w` and target `num_in_channels = k ≥ 1`, the
expansion performed by `intialize_model` yields input-channel width exactly
`k * w` (not the next multiple of `w` that is `≥ k`); when the pretrained
weight is single-channel (`w = 1`, the MedicalNet case) this equals `k`, and
only in that case does the spec's "next multiple ≥ k" description agree with
the code. -/
theorem claim1_channel_expansion_amended (w k : Nat) (hk : 1 ≤ k) :
    conv1AfterLoad [("conv1.weight", Tensor.mk w)] [] k =
      some (Tensor.mk (k * w)) ∧
    (w = 1 → specExpandedWidth w k = k * w) := by
  constructor
  · exact conv1AfterLoad_spec [("conv1.weight", Tensor.mk w)] [] k w hk rfl
  · rintro rfl
    simp [specExpandedWidth, Nat.mod_one]

/-- C1 witness: the amended theorem evaluated at `w = 1`, `k = 5`. -/
theorem claim1_witness :
    1 ≤ 5 ∧
    conv1AfterLoad [("conv1.weight", Tensor.mk 1)] [] 5 =
      some (Tensor.mk (5 * 1)) ∧
    specExpandedWidth 1 5 = 5 * 1 :=
  ⟨by decide, (claim1_channel_expansion_amended 1 5 (by decide)).1,
    (claim1_channel_expansion_amended 1 5 (by decide)).2 rfl⟩

/-- C5: merging the normalised checkpoint dictionary into the model's state
dictionary by `model_dict.update(weights_dict)` overwrites only keys present
in the checkpoint - any key absent from the normalised checkpoint keeps its
value from the model dictionary - and when the checkpoint contains no
`fc.weight`/`fc.bias` entry (the pretrained head has a different shape), the
dictionary returned by `intialize_model` still holds the freshly initialised
output-layer entries of the model's own state dictionary, so
`load_state_dict` leaves the new output layer at its fresh initialisation. -/
theorem claim5_merge_preserves_fc (model_dict checkpoint : List (String × Tensor))
    (num_in_channels : Nat)
    (hfc : ∀ kv ∈ normalizeKeys checkpoint,
        kv.1 ≠ "fc.weight" ∧ kv.1 ≠ "fc.bias") :
    (∀ key, dictLookup (normalizeKeys checkpoint) key = none →
        dictLookup (dictUpdate model_dict (normalizeKeys checkpoint)) key =
          dictLookup model_dict key) ∧
    (∀ res, ResNet.intialize_model model_dict checkpoint num_in_channels =
        some res →
      dictLookup res "fc.weight" = dictLookup model_dict "fc.weight" ∧
      dictLookup res "fc.bias" = dictLookup model_dict "fc.bias") := by
  have hwnone : ∀ key, (∀ kv ∈ normalizeKeys checkpoint, kv.1 ≠ key) →
      dictLookup (normalizeKeys checkpoint) key = none := fun key hk =>
    dictLookup_eq_none_of_all_ne _ _ hk
  refine ⟨fun key hnone => dictLookup_dictUpdate_of_not_mem _ _ _ hnone, ?_⟩
  intro res hres
  rw [ResNet.intialize_model] at hres
  rcases hcw : dictLookup (dictUpdate model_dict (normalizeKeys checkpoint))
      "conv1.weight" with _ | cw
  · rw [hcw] at hres
    exact absurd hres (by simp)
  · rw [hcw] at hres
    have hres2 : ResNet.expandChannelsLoop cw (num_in_channels - 1)
        (dictUpdate model_dict (normalizeKeys checkpoint)) = some res := hres
    obtain ⟨d2, hloop, _, hframe⟩ :=
      expandChannelsLoop_spec cw (num_in_channels - 1) _ _ hcw
    rw [hloop] at hres2
    obtain rfl : d2 = res := by simpa using hres2
    have hmerge : ∀ key, (∀ kv ∈ normalizeKeys checkpoint, kv.1 ≠ key) →
        key ≠ "conv1.weight" →
        dictLookup d2 key = dictLookup model_dict key := by
      intro key hnot hne
      rw [hframe key hne]
      exact dictLookup_dictUpdate_of_not_mem _ _ _ (hwnone key hnot)
    exact ⟨hmerge "fc.weight" (fun kv hkv => (hfc kv hkv).1) (by decide),
      hmerge "fc.bias" (fun kv hkv => (hfc kv hkv).2) (by decide)⟩

/-- C5 witness: the theorem applied to a concrete model dictionary whose
fresh `fc` entries survive the merge and the channel expansion. -/
theorem claim5_witness :
    dictLookup
        (dictUpdate
          [("conv1.weight", Tensor.mk 1), ("fc.weight", Tensor.mk 5),
            ("fc.bias", Tensor.mk 6)]
          (normalizeKeys [("module.conv1.weight", Tensor.mk 1)]))
        "fc.weight" =
      dictLookup
        [("conv1.weight", Tensor.mk 1), ("fc.weight", Tensor.mk 5),
          ("fc.bias", Tensor.mk 6)] "fc.weight" ∧
    dictLookup
        [("conv1.weight", Tensor.mk 2), ("fc.weight", Tensor.mk 5),
          ("fc.bias", Tensor.mk 6)] "fc.weight" =
      dictLookup
        [("conv1.weight", Tensor.mk 1), ("fc.weight", Tensor.mk 5),
          ("fc.bias", Tensor.mk 6)] "fc.weight" ∧
    dictLookup
        [("conv1.weight", Tensor.mk 2), ("fc.weight", Tensor.mk 5),
          ("fc.bias", Tensor.mk 6)] "fc.bias" =
      dictLookup
        [("conv1.weight", Tensor.mk 1), ("fc.weight", Tensor.mk 5),
          ("fc.bias", Tensor.mk 6)] "fc.bias" :=
  ⟨(claim5_merge_preserves_fc
      [("conv1.weight", Tensor.mk 1), ("fc.weight", Tensor.mk 5),
        ("fc.bias", Tensor.mk 6)]
      [("module.conv1.weight", Tensor.mk 1)] 2 (by decide)).1
      "fc.weight" (by decide),
    ((claim5_merge_preserves_fc
      [("conv1.weight", Tensor.mk 1), ("fc.weight", Tensor.mk 5),
        ("fc.bias", Tensor.mk 6)]
      [("module.conv1.weight", Tensor.mk 1)] 2 (by decide)).2
      [("conv1.weight", Tensor.mk 2), ("fc.weight", Tensor.mk 5),
        ("fc.bias", Tensor.mk 6)] (by decide)).1,
    ((claim5_merge_preserves_fc
      [("conv1.weight", Tensor.mk 1), ("fc.weight", Tensor.mk 5),
        ("fc.bias", Tensor.mk 6)]
      [("module.conv1.weight", Tensor.mk 1)] 2 (by decide)).2
      [("conv1.weight", Tensor.mk 2), ("fc.weight", Tensor.mk 5),
        ("fc.bias", Tensor.mk 6)] (by decide)).2⟩

/-- C9: the channel-expansion loop of `intialize_model` runs exactly
`num_in_channels - 1` iterations, driven by its counter alone, so for every
merged first-convolution weight of input-channel width `w` and every target
`num_in_channels = k ≥ 1` the resulting weight's input-channel dimension is
exactly `k * w`; when `w = 1` it equals `k` with no overshoot. -/
theorem claim9_counter_driven_expansion
    (model_dict checkpoint : List (String × Tensor)) (k w : Nat) (hk : 1 ≤ k)
    (hw : dictLookup (dictUpdate model_dict (normalizeKeys checkpoint))
        "conv1.weight" = some (Tensor.mk w)) :
    conv1AfterLoad model_dict checkpoint k = some (Tensor.mk (k * w)) ∧
    (w = 1 → conv1AfterLoad model_dict checkpoint k = some (Tensor.mk k)) := by
  have hm := conv1AfterLoad_spec model_dict checkpoint k w hk hw
  refine ⟨hm, ?_⟩
  rintro rfl
  simpa using hm

/-- C9 witness: the theorem evaluated at a single-channel pretrained weight
and `num_in_channels = 9` (the end-to-end configuration of the spec). -/
theorem claim9_witness :
    1 ≤ 9 ∧
    dictLookup
        (dictUpdate [("conv1.weight", Tensor.mk 1)]
          (normalizeKeys [("module.conv1.weight", Tensor.mk 1)]))
        "conv1.weight" = some (Tensor.mk 1) ∧
    conv1AfterLoad [("conv1.weight", Tensor.mk 1)]
        [("module.conv1.weight", Tensor.mk 1)] 9 = some (Tensor.mk (9 * 1)) ∧
    conv1AfterLoad [("conv1.weight", Tensor.mk 1)]
        [("module.conv1.weight", Tensor.mk 1)] 9 = some (Tensor.mk 9) :=
  ⟨by decide, by decide,
    (claim9_counter_driven_expansion [("conv1.weight", Tensor.mk 1)]
      [("module.conv1.weight", Tensor.mk 1)] 9 1 (by decide) (by decide)).1,
    (claim9_counter_driven_expansion [("conv1.weight", Tensor.mk 1)]
      [("module.conv1.weight", Tensor.mk 1)] 9 1 (by decide) (by decide)).2 rfl⟩

/-- C10: the key normalisation `k.replace('module.', '')` removes every
occurrence of the substring `module.` anywhere inside a parameter name, not
only a leading wrapping-module prefix: a key whose only occurrence is the
leading prefix becomes the prefix-stripped name, and a key containing
`module.` elsewhere, such as `submodule.x`, is also rewritten. -/
theorem claim10_module_replace_all :
    (∀ t : List Char, containsSub "module.".toList t = false →
        replaceAll "module.".toList ("module.".toList ++ t) = t) ∧
    normalizeKey "submodule.x" = "subx" ∧
    normalizeKey "module.conv1.weight" = "conv1.weight" := by
  refine ⟨fun t ht => replaceAll_strip _ t (by decide) ht, by decide, by decide⟩

/-- C10 witness: the universally quantified part of the theorem evaluated at
the suffix `x`. -/
theorem claim10_witness :
    containsSub "module.".toList "x".toList = false ∧
    replaceAll "module.".toList ("module.".toList ++ "x".toList) = "x".toList :=
  ⟨by decide, claim10_module_replace_all.1 "x".toList (by decide)⟩

/-! Helper lemmas about the freezing policy. -/

theorem extract_features_true_eq (params : List Param) :
    ResNet.extract_features true params =
      params.map (fun p => { p with requiresGrad := p.isFc }) := by
  simp only [ResNet.extract_features, if_true, List.map_map]
  induction params with
  | nil => rfl
  | cons p rest ih =>
      simp only [List.map_cons] at ih ⊢
      rw [ih]
      obtain ⟨n, rg, fc⟩ := p
      cases fc <;> rfl

theorem extract_features_false_eq (params : List Param) :
    ResNet.extract_features false params = params.map (setRequiresGrad true) := rfl

theorem filter_requiresGrad_of_flag_eq_isFc (params : List Param) :
    (params.map (fun p => { p with requiresGrad := p.isFc })).filter
        (fun p => p.requiresGrad) =
      (params.map (fun p => { p with requiresGrad := p.isFc })).filter
        (fun p => p.isFc) := by
  apply List.filter_congr
  intro p hp
  obtain ⟨q, _, rfl⟩ := List.mem_map.mp hp
  rfl

theorem construct_valid_eq (version : String) (hv : version ∈ validVersions)
    (feature_extraction : Bool) (backboneParams : List Param) :
    ResNet.construct version feature_extraction backboneParams =
      ConstructOutcome.ok (ResNet.extract_features feature_extraction
        (backboneParams.filter (fun p => !p.isFc) ++ ResNet.define_output_layer)) := by
  have hany : validVersions.any (fun version_item => version == version_item) = true :=
    List.any_eq_true.mpr ⟨version, hv, beq_self_eq_true version⟩
  simp only [ResNet.construct, hany, if_true]

/-- C2: for every valid version string, construction succeeds, and with
`feature_extraction = True` the set of parameters whose trainable flag is set
afterwards is exactly the set of parameters of the newly created output
layer `model.fc`, while with `feature_extraction = False` it is the full
parameter set of the model. -/
theorem claim2_freezing_policy (version : String) (hv : version ∈ validVersions)
    (backboneParams : List Param) :
    (ResNet.construct version true backboneParams).isOk = true ∧
    trainableParams (ResNet.construct version true backboneParams) =
      fcParams (ResNet.construct version true backboneParams) ∧
    (ResNet.construct version false backboneParams).isOk = true ∧
    trainableParams (ResNet.construct version false backboneParams) =
      allParams (ResNet.construct version false backboneParams) := by
  rw [construct_valid_eq version hv true backboneParams,
    construct_valid_eq version hv false backboneParams]
  refine ⟨rfl, ?_, rfl, ?_⟩
  · rw [extract_features_true_eq]
    simp only [trainableParams, fcParams]
    rw [filter_requiresGrad_of_flag_eq_isFc]
  · rw [extract_features_false_eq]
    simp only [trainableParams, allParams]
    congr 1
    apply List.filter_eq_self.mpr
    intro p hp
    obtain ⟨q, _, rfl⟩ := List.mem_map.mp hp
    rfl

/-- C2 witness: the theorem evaluated at version `resnet50` and a one-entry
backbone parameter list. -/
theorem claim2_witness :
    "resnet50" ∈ validVersions ∧
    trainableParams
        (ResNet.construct "resnet50" true [Param.mk "conv1.weight" true false]) =
      fcParams
        (ResNet.construct "resnet50" true [Param.mk "conv1.weight" true false]) ∧
    trainableParams
        (ResNet.construct "resnet50" false [Param.mk "conv1.weight" true false]) =
      allParams
        (ResNet.construct "resnet50" false [Param.mk "conv1.weight" true false]) :=
  ⟨by decide,
    (claim2_freezing_policy "resnet50" (by decide)
      [Param.mk "conv1.weight" true false]).2.1,
    (claim2_freezing_policy "resnet50" (by decide)
      [Param.mk "conv1.weight" true false]).2.2.2⟩

/-- C3: for every version string outside the seven literals, construction
prints the diagnostic and terminates the process with exit code 1; it never
returns a usable instance and never surfaces a typed exception to the
caller. -/
theorem claim3_invalid_version_fatal (version : String)
    (hv : version ∉ validVersions) (feature_extraction : Bool)
    (backboneParams : List Param) :
    ResNet.construct version feature_extraction backboneParams =
      ConstructOutcome.fatal 1
        "Invalid version. Please choose from: resnet10, resnet18, resnet34, resnet50, resnet101, resnet152, resnet200" ∧
    (∀ inst, ResNet.construct version feature_extraction backboneParams ≠
      ConstructOutcome.ok inst) ∧
    (∀ exceptionType message,
      ResNet.construct version feature_extraction backboneParams ≠
        ConstructOutcome.raised exceptionType message) := by
  have hany : validVersions.any (fun version_item => version == version_item) =
      false := by
    rw [Bool.eq_false_iff]
    intro hcontra
    obtain ⟨x, hx, hbeq⟩ := List.any_eq_true.mp hcontra
    exact hv (eq_of_beq hbeq ▸ hx)
  have hfatal : ResNet.construct version feature_extraction backboneParams =
      ConstructOutcome.fatal 1
        "Invalid version. Please choose from: resnet10, resnet18, resnet34, resnet50, resnet101, resnet152, resnet200" := by
    simp only [ResNet.construct, hany, Bool.false_eq_true, if_false]
  refine ⟨hfatal, ?_, ?_⟩
  · intro inst
    rw [hfatal]
    simp
  · intro exceptionType message
    rw [hfatal]
    simp

/-- C3 witness: the theorem evaluated at the invalid version `resnet20`. -/
theorem claim3_witness :
    "resnet20" ∉ validVersions ∧
    ResNet.construct "resnet20" true [] =
      ConstructOutcome.fatal 1
        "Invalid version. Please choose from: resnet10, resnet18, resnet34, resnet50, resnet101, resnet152, resnet200" :=
  ⟨by decide, (claim3_invalid_version_fatal "resnet20" (by decide) true []).1⟩

/-- C7: after ensemble construction, every parameter of each of the four
stored backbones has its trainable flag cleared and every parameter of the
linear combiner has its trainable flag set, whatever the flags of the
backbone parameters were before they were passed in. -/
theorem claim7_ensemble_freeze (m1 m2 m3 m4 : List Param) :
    (EnsembleModel.init m1 m2 m3 m4).model1.all (fun p => !p.requiresGrad) = true ∧
    (EnsembleModel.init m1 m2 m3 m4).model2.all (fun p => !p.requiresGrad) = true ∧
    (EnsembleModel.init m1 m2 m3 m4).model3.all (fun p => !p.requiresGrad) = true ∧
    (EnsembleModel.init m1 m2 m3 m4).model4.all (fun p => !p.requiresGrad) = true ∧
    (EnsembleModel.init m1 m2 m3 m4).classifier.all (fun p => p.requiresGrad) = true := by
  simp [EnsembleModel.init, EnsembleModel.freeze_model_parameters, List.all_map,
    Function.comp, setRequiresGrad, List.all_eq_true]

/-- C4: the ensemble forward pass runs the input independently through the
four backbones, concatenates the four outputs in constructor-argument order,
and applies the trainable linear combiner; when each backbone output has
width `num_out_classes`, the combiner input has width exactly
`4 × num_out_classes`, the `in_features` of
`torch.nn.Linear(num_out_classes * 4, num_out_classes)`. -/
theorem claim4_ensemble_forward (model1 model2 model3 model4 : List Int → List Int)
    (classifier : LinearLayer) (x : List Int) (num_out_classes : Nat)
    (h1 : (model1 x).length = num_out_classes)
    (h2 : (model2 x).length = num_out_classes)
    (h3 : (model3 x).length = num_out_classes)
    (h4 : (model4 x).length = num_out_classes) :
    EnsembleModel.forward model1 model2 model3 model4 classifier.applyL x =
      classifier.applyL (model1 x ++ model2 x ++ model3 x ++ model4 x) ∧
    (model1 x ++ model2 x ++ model3 x ++ model4 x).length =
      ensembleClassifierInFeatures num_out_classes ∧
    ensembleClassifierInFeatures num_out_classes = 4 * num_out_classes := by
  refine ⟨rfl, ?_, by rw [ensembleClassifierInFeatures]; ring⟩
  simp only [List.length_append, h1, h2, h3, h4, ensembleClassifierInFeatures]
  ring

/-- A backbone stub returning a fixed two-logit output, used by the C4
witness. -/
def demoBackbone : List Int → List Int := fun _ => [1, 2]

/-- An eight-input, two-output combiner, used by the C4 witness. -/
def demoCombiner : LinearLayer :=
  LinearLayer.mk [[1, 1, 1, 1, 1, 1, 1, 1], [1, 0, 1, 0, 1, 0, 1, 0]] [0, 3]

/-- C4 witness: the theorem evaluated at four copies of the stub backbone and
the concrete combiner. -/
theorem claim4_witness :
    (demoBackbone [5]).length = 2 ∧
    (EnsembleModel.forward demoBackbone demoBackbone demoBackbone demoBackbone
        demoCombiner.applyL [5] =
      demoCombiner.applyL (demoBackbone [5] ++ demoBackbone [5] ++
        demoBackbone [5] ++ demoBackbone [5]) ∧
    (demoBackbone [5] ++ demoBackbone [5] ++ demoBackbone [5] ++
        demoBackbone [5]).length = ensembleClassifierInFeatures 2 ∧
    ensembleClassifierInFeatures 2 = 4 * 2) :=
  ⟨by decide,
    claim4_ensemble_forward demoBackbone demoBackbone demoBackbone demoBackbone
      demoCombiner [5] 2 rfl rfl rfl rfl⟩

/-! Helper lemmas about the DINOHead MLP structure. -/

theorem countP_flatten_replicate (m : Nat) (l : List DinoLayer)
    (p : DinoLayer → Bool) :
    ((List.replicate m l).flatten).countP p = m * l.countP p := by
  induction m with
  | zero => simp
  | succ m ih =>
      rw [List.replicate_succ, List.flatten_cons, List.countP_append, ih]
      ring

theorem all_flatten_replicate (m : Nat) (l : List DinoLayer) (p : DinoLayer → Bool)
    (h : l.all p = true) : ((List.replicate m l).flatten).all p = true := by
  induction m with
  | zero => rfl
  | succ m ih =>
      rw [List.replicate_succ, List.flatten_cons, List.all_append]
      simp [h, ih]

theorem buildMlp_eq_of_two_le (in_dim nl : Nat) (h : 2 ≤ nl) :
    DINOHead.buildMlp in_dim nl =
      [DinoLayer.linear in_dim (in_dim * 4), DinoLayer.gelu]
        ++ (List.replicate (nl - 2)
              [DinoLayer.linear (in_dim * 4) (in_dim * 4), DinoLayer.gelu]).flatten
        ++ [DinoLayer.linear (in_dim * 4) (in_dim / 2)] := by
  have hmax : max nl 1 = nl := Nat.max_eq_left (by omega)
  have hne : ¬(nl = 1) := by omega
  simp only [DINOHead.buildMlp, hmax, if_neg hne]

/-- C6: the MLP of a `DINOHead` consists of `max(nlayers, 1)` linear layers;
for `nlayers = 1` it is a single linear map from `in_dim` to `in_dim / 2`;
for `nlayers ≥ 2` there are exactly `nlayers - 1` GELU applications, the
final layer is the linear map from the hidden width `4 * in_dim` to
`in_dim / 2` (so no activation follows it), and every linear layer reads
either `in_dim` or the hidden width `4 * in_dim` and writes either the
hidden width or the bottleneck `in_dim / 2`. -/
theorem claim6_dinohead_mlp (in_dim nl : Nat) :
    (DINOHead.buildMlp in_dim nl).countP isLinearLayer = max nl 1 ∧
    (nl = 1 →
      DINOHead.buildMlp in_dim nl = [DinoLayer.linear in_dim (in_dim / 2)]) ∧
    (2 ≤ nl →
      (DINOHead.buildMlp in_dim nl).countP isGeluLayer = nl - 1 ∧
      (DINOHead.buildMlp in_dim nl).getLast? =
        some (DinoLayer.linear (in_dim * 4) (in_dim / 2)) ∧
      (DINOHead.buildMlp in_dim nl).all (mlpDimsOk in_dim) = true) := by
  refine ⟨?_, ?_, ?_⟩
  · rcases Nat.lt_or_ge nl 2 with hlt | hge
    · interval_cases nl <;> rfl
    · rw [buildMlp_eq_of_two_le in_dim nl hge, List.countP_append,
        List.countP_append, countP_flatten_replicate,
        Nat.max_eq_left (by omega : 1 ≤ nl)]
      simp [List.countP_cons, List.countP_nil, isLinearLayer]
      omega
  · intro h1
    subst h1
    rfl
  · intro hge
    rw [buildMlp_eq_of_two_le in_dim nl hge]
    refine ⟨?_, ?_, ?_⟩
    · rw [List.countP_append, List.countP_append, countP_flatten_replicate]
      simp [List.countP_cons, List.countP_nil, isGeluLayer]
      omega
    · rw [List.getLast?_concat]
    · have hblk : ([DinoLayer.linear (in_dim * 4) (in_dim * 4),
          DinoLayer.gelu]).all (mlpDimsOk in_dim) = true := by
        simp [mlpDimsOk, List.all_cons]
      rw [List.all_append, List.all_append, all_flatten_replicate _ _ _ hblk]
      simp [mlpDimsOk, List.all_cons]

/-- C6 witness: the theorem evaluated at `in_dim = 6` with `nlayers = 1`
(single-layer branch) and `nlayers = 3` (multi-layer branch). -/
theorem claim6_witness :
    DINOHead.buildMlp 6 1 = [DinoLayer.linear 6 3] ∧
    2 ≤ 3 ∧
    (DINOHead.buildMlp 6 3).countP isGeluLayer = 3 - 1 :=
  ⟨(claim6_dinohead_mlp 6 1).2.1 rfl, by decide,
    ((claim6_dinohead_mlp 6 3).2.2 (by decide)).1⟩

/-- C8 counterexample: at `in_dim = 2`, `nlayers = 1`,
`norm_last_layer = True`, the final weight-normalised projection layer holds
the framework-default weight initialisation, not a truncated-normal one,
because `self.apply(self._init_weights)` runs before `self.last_layer` is
created. -/
theorem claim8_counterexample :
    (DINOHead.construct 2 1 true).lastLayer.weightInit =
      WeightInit.frameworkDefault ∧
    WeightInit.frameworkDefault ≠ WeightInit.truncNormal002 := by
  decide

/-- C8 (amended): at `DINOHead` construction, every linear layer of the MLP
has its weight initialised with truncated-normal values of standard
deviation 0.02 and its bias set to zero; the final weight-normalised
projection layer, created only after the initialisation pass (and built
without a bias), keeps the framework-default weight initialisation, and its
magnitude parameter is filled with 1. -/
theorem claim8_trunc_normal_amended (in_dim nl : Nat) (norm_last_layer : Bool) :
    ((DINOHead.construct in_dim nl norm_last_layer).mlpLinears.all
      (fun l => (l.weightInit == WeightInit.truncNormal002) &&
        (l.biasZeroed == some true))) = true ∧
    (DINOHead.construct in_dim nl norm_last_layer).lastLayer =
      LinearInitState.mk WeightInit.frameworkDefault none ∧
    (DINOHead.construct in_dim nl norm_last_layer).lastLayerMagFilledOne = true ∧
    (DINOHead.construct in_dim nl norm_last_layer).lastLayerMagTrainable =
      !norm_last_layer := by
  refine ⟨?_, rfl, rfl, rfl⟩
  simp only [DINOHead.construct, List.all_map]
  apply List.all_eq_true.mpr
  intro x hx
  obtain ⟨a, _, hfa⟩ := List.mem_filterMap.mp hx
  cases a with
  | linear di dout =>
      obtain rfl :
          LinearInitState.mk WeightInit.frameworkDefault (some false) = x := by
        simpa using hfa
      rfl
  | gelu => simp at hfa

end ThesisModels
